import Mathlib

/-!
Verification of the URL routing configuration in
`src/plugin/ol3-viewer/urls.py` (omero-iviewer).

The source file declares, with Django `path()` syntax:

    urlpatterns = [
        path(r"<int:iid>/", views.index, name="ol3-viewer-index"),
        path(r"plugin/<int:iid>/", views.plugin, name="ol3-viewer-plugin"),
        path(
            r"plugin-debug/<int:iid>/", views.plugin_debug,
            name="ol3-viewer-plugin-debug"
        ),
    ]

We embed the route table and the relevant Django routing semantics:
a `path()` route string is a sequence of literal pieces and typed capture
groups; the `int` converter matches the regex `[0-9]+` and converts the
matched digits to an integer; a route declared directly in `urlpatterns`
is anchored at both ends (Django appends `$` for endpoint patterns and
the resolver strips the leading `/` of the request path before matching);
dispatch tries the routes in declaration order and picks the first match;
`reverse` looks a route up by name and substitutes the decimal form of
the argument for the capture group.

In `matchToks` the `int` converter consumes the maximal run of digits.
For the three patterns of this file every `int` capture is followed by
the literal `/`, which begins with a non-digit character, so maximal
munch coincides with the backtracking semantics of the regex `[0-9]+`
that Django compiles the converter to.
-/

/-- The character class of the Django `int` path converter: the regex
`[0-9]+` matches exactly the ASCII digit characters 48..57. -/
def isDigitChar (c : Char) : Bool := 48 ≤ c.toNat && c.toNat ≤ 57

/-- Value of a digit sequence read in base 10, as the `int` converter
`to_python` conversion (`int(value)`) produces it. -/
def natFromDigits (ds : List Char) : Nat :=
  ds.foldl (fun a c => 10 * a + (c.toNat - 48)) 0

/-- One piece of a Django `path()` route string: a literal run of
characters, or an `<int:name>` capture group (the only converter used in
this file is `int`). -/
inductive Tok where
  | lit : List Char → Tok
  | intconv : String → Tok
deriving DecidableEq

/-- True exactly on capture-group pieces. -/
def Tok.isCapture : Tok → Bool
  | .lit _ => false
  | .intconv _ => true

/-- The three view callables `views.index`, `views.plugin`,
`views.plugin_debug` referenced by the route table, kept opaque: their
behaviour is defined outside the source file. -/
inductive View where
  | index
  | plugin
  | plugin_debug
deriving DecidableEq

/-- One entry of the route table: the tokenized route string, the view
callable, and the route name. -/
structure Route where
  pattern : List Tok
  view : View
  name : String
deriving DecidableEq

/-- Mirror of `django.urls.path(route, view, name=...)`. -/
def path (route : List Tok) (view : View) (nm : String) : Route :=
  ⟨route, view, nm⟩

/-- Line 25 of the source: `path(r"<int:iid>/", views.index,
name="ol3-viewer-index")`; the route string tokenizes as the capture
`<int:iid>` followed by the literal `/`. -/
def route_index : Route :=
  path [Tok.intconv "iid", Tok.lit "/".toList] View.index "ol3-viewer-index"

/-- Line 26 of the source: `path(r"plugin/<int:iid>/", views.plugin,
name="ol3-viewer-plugin")`. -/
def route_plugin : Route :=
  path [Tok.lit "plugin/".toList, Tok.intconv "iid", Tok.lit "/".toList]
    View.plugin "ol3-viewer-plugin"

/-- Lines 27-29 of the source: `path(r"plugin-debug/<int:iid>/",
views.plugin_debug, name="ol3-viewer-plugin-debug")`. -/
def route_plugin_debug : Route :=
  path [Tok.lit "plugin-debug/".toList, Tok.intconv "iid", Tok.lit "/".toList]
    View.plugin_debug "ol3-viewer-plugin-debug"

/-- The route table of `urls.py` lines 24-30, in declaration order. -/
def urlpatterns : List Route :=
  [route_index, route_plugin, route_plugin_debug]

/-- Match a literal piece: `dropLit l s = some r` iff `s = l ++ r`. -/
def dropLit : List Char → List Char → Option (List Char)
  | [], s => some s
  | _ :: _, [] => none
  | c :: l, d :: s => if c = d then dropLit l s else none

/-- Match a token sequence against a whole request path (anchored at both
ends, as Django endpoint patterns are), returning the captured
parameters in order. -/
def matchToks : List Tok → List Char → Option (List (String × Nat))
  | [], s => if s.isEmpty then some [] else none
  | Tok.lit l :: ts, s => (dropLit l s).bind (fun r => matchToks ts r)
  | Tok.intconv nm :: ts, s =>
      let ds := s.takeWhile isDigitChar
      if ds.isEmpty then none
      else
        (matchToks ts (s.dropWhile isDigitChar)).map
          (fun ps => (nm, natFromDigits ds) :: ps)

/-- Outcome of a successful resolution, after Django `ResolverMatch`:
the view callable, the captured keyword arguments, and the route name. -/
structure ResolverMatch where
  func : View
  kwargs : List (String × Nat)
  url_name : String
deriving DecidableEq

/-- Dispatch over a route list: first declared match wins, as in the
Django resolver. -/
def resolveList : List Route → List Char → Option ResolverMatch
  | [], _ => none
  | r :: rs, p =>
      match matchToks r.pattern p with
      | some a => some ⟨r.view, a, r.name⟩
      | none => resolveList rs p

/-- Resolution of a request path against the route table of `urls.py`
(path given relative to the URLconf root, without the leading slash the
resolver strips). -/
def resolve (s : String) : Option ResolverMatch :=
  resolveList urlpatterns s.data

/-- The ASCII character of a decimal digit value. -/
def digitChar (d : Nat) : Char := Char.ofNat (48 + d)

/-- Decimal digits of `n`, most significant first, prepended to `acc`;
fuel-driven structural recursion (any fuel above `n` suffices, since
`n / 10 < n` for `n ≥ 10`). -/
def natToDigitsCore : Nat → Nat → List Char → List Char
  | 0, _, acc => acc
  | fuel + 1, n, acc =>
      if n < 10 then digitChar n :: acc
      else natToDigitsCore fuel (n / 10) (digitChar (n % 10) :: acc)

/-- Decimal representation of `n`, as Python `str(n)` renders a
non-negative integer during URL reversing. -/
def natToDigits (n : Nat) : List Char := natToDigitsCore (n + 1) n []

/-- Substitute `iid` for every capture group of a route, keeping the
literal pieces: what `django.urls.reverse` builds from the route. -/
def substToks : List Tok → Nat → List Char
  | [], _ => []
  | Tok.lit l :: ts, n => l ++ substToks ts n
  | Tok.intconv _ :: ts, n => natToDigits n ++ substToks ts n

/-- Mirror of `django.urls.reverse(name, args=[iid])` over this route
table: look the route up by name and substitute the argument. -/
def reverse (nm : String) (iid : Nat) : Option String :=
  (urlpatterns.find? (fun r => r.name == nm)).map
    (fun r => String.mk (substToks r.pattern iid))

/-- Names the module `urls.py` imports (lines 18-22 of the source). -/
def importedNames : List String :=
  ["patterns", "path", "TemplateView", "views"]

/-- Names referenced in the `urlpatterns` assignment (source lines
24-30): only `path` and the three view attributes appear there. -/
def urlpatternsReferencedNames : List String :=
  ["path", "views.index", "views.plugin", "views.plugin_debug"]

/-! ## Helper lemmas about literal matching -/

/-- A literal piece strips itself off the front of a path. -/
theorem dropLit_append (l r : List Char) : dropLit l (l ++ r) = some r := by
  induction l with
  | nil => rfl
  | cons c l ih => simp [dropLit, ih]

/-- If a literal piece strips, the path began with it. -/
theorem dropLit_sound (l : List Char) :
    ∀ s r, dropLit l s = some r → s = l ++ r := by
  induction l with
  | nil =>
    intro s r h
    simpa [dropLit] using h
  | cons c l ih =>
    intro s r h
    cases s with
    | nil => simp [dropLit] at h
    | cons d s =>
      by_cases hcd : c = d
      · subst hcd
        simp only [dropLit, if_pos rfl] at h
        simp [ih s r h]
      · simp [dropLit, hcd] at h

/-- An `Option` that is no `some` is `none`. -/
theorem opt_eq_none {α : Type} (o : Option α) (h : ∀ a, o ≠ some a) :
    o = none := by
  cases o with
  | none => rfl
  | some a => exact absurd rfl (h a)

/-- A nonempty list has `isEmpty = false`. -/
theorem isEmpty_false_of_ne {α : Type} (l : List α) (h : l ≠ []) :
    l.isEmpty = false := by
  cases l with
  | nil => exact absurd rfl h
  | cons a l => rfl

/-- `takeWhile` passes over a block that satisfies the predicate. -/
theorem takeWhile_append_all {α : Type} (p : α → Bool) (l r : List α)
    (h : ∀ c ∈ l, p c = true) :
    (l ++ r).takeWhile p = l ++ r.takeWhile p := by
  induction l with
  | nil => rfl
  | cons c l ih =>
    rw [List.cons_append, List.takeWhile_cons_of_pos (h c (by simp))]
    rw [ih (fun x hx => h x (by simp [hx])), List.cons_append]

/-- `dropWhile` drops a whole block that satisfies the predicate. -/
theorem dropWhile_append_all {α : Type} (p : α → Bool) (l r : List α)
    (h : ∀ c ∈ l, p c = true) :
    (l ++ r).dropWhile p = r.dropWhile p := by
  induction l with
  | nil => rfl
  | cons c l ih =>
    rw [List.cons_append, List.dropWhile_cons_of_pos (h c (by simp))]
    exact ih (fun x hx => h x (by simp [hx]))

/-- Matching a pattern that starts with a literal piece succeeds exactly
when the path starts with that literal and the rest matches the rest. -/
theorem match_lit_some_iff (l : List Char) (ts : List Tok) (s : List Char)
    (a : List (String × Nat)) :
    matchToks (Tok.lit l :: ts) s = some a ↔
      ∃ r, s = l ++ r ∧ matchToks ts r = some a := by
  constructor
  · intro h
    simp only [matchToks, Option.bind_eq_some] at h
    obtain ⟨r, hdl, hm⟩ := h
    exact ⟨r, dropLit_sound l s r hdl, hm⟩
  · rintro ⟨r, rfl, hm⟩
    simp [matchToks, dropLit_append, hm]

/-- Matching the pattern suffix `<int:iid>/` (shared by all three routes)
succeeds exactly on paths `ds ++ "/"` with `ds` a nonempty digit run, and
captures `iid` as the value of `ds`. -/
theorem match_intSlash_some_iff (s : List Char) (a : List (String × Nat)) :
    matchToks [Tok.intconv "iid", Tok.lit "/".toList] s = some a ↔
      ∃ ds, ds ≠ [] ∧ (∀ c ∈ ds, isDigitChar c = true) ∧
        s = ds ++ ['/'] ∧ a = [("iid", natFromDigits ds)] := by
  constructor
  · intro h
    simp only [matchToks] at h
    by_cases he : (s.takeWhile isDigitChar).isEmpty
    · rw [if_pos he] at h
      exact absurd h (by simp)
    · rw [if_neg he] at h
      simp only [Option.map_eq_some', Option.bind_eq_some] at h
      obtain ⟨ps, ⟨r, hdl, hnil⟩, ha⟩ := h
      have hr : s.dropWhile isDigitChar = ['/'] ++ r := dropLit_sound _ _ _ hdl
      have hrnil : r = [] ∧ ps = [] := by
        by_cases hre : r.isEmpty
        · have : r = [] := by cases r with
            | nil => rfl
            | cons x xs => simp at hre
          refine ⟨this, ?_⟩
          rw [this] at hnil
          simpa using hnil.symm
        · rw [if_neg hre] at hnil
          exact absurd hnil (by simp)
      refine ⟨s.takeWhile isDigitChar, ?_, ?_, ?_, ?_⟩
      · intro hnil2
        rw [hnil2] at he
        exact he rfl
      · exact fun c hc => List.mem_takeWhile_imp hc
      · have h4 := (List.takeWhile_append_dropWhile isDigitChar s).symm
        rw [hr, hrnil.1] at h4
        simpa using h4
      · rw [← ha, hrnil.2]
  · rintro ⟨ds, hne, hdig, rfl, rfl⟩
    have htw : ((ds ++ ['/']).takeWhile isDigitChar) = ds := by
      rw [takeWhile_append_all isDigitChar ds ['/'] hdig]
      rw [List.takeWhile_cons_of_neg (by decide), List.append_nil]
    have hdw : ((ds ++ ['/']).dropWhile isDigitChar) = ['/'] := by
      rw [dropWhile_append_all isDigitChar ds ['/'] hdig]
      rw [List.dropWhile_cons_of_neg (by decide)]
    simp only [matchToks, htw, hdw]
    rw [if_neg (by simp [isEmpty_false_of_ne ds hne])]
    rfl

/-- Positive form: a nonempty digit run followed by a slash matches the
suffix pattern `<int:iid>/`. -/
theorem match_intSlash_digits (ds : List Char) (h1 : ds ≠ [])
    (h2 : ∀ c ∈ ds, isDigitChar c = true) :
    matchToks [Tok.intconv "iid", Tok.lit "/".toList] (ds ++ ['/']) =
      some [("iid", natFromDigits ds)] :=
  (match_intSlash_some_iff _ _).mpr ⟨ds, h1, h2, rfl, rfl⟩

/-- Negative form: a path that is no nonempty digit run followed by a
slash fails the suffix pattern `<int:iid>/`. -/
theorem match_intSlash_none (s : List Char)
    (h : ∀ ds, ds ≠ [] → (∀ c ∈ ds, isDigitChar c = true) →
      s ≠ ds ++ ['/']) :
    matchToks [Tok.intconv "iid", Tok.lit "/".toList] s = none := by
  apply opt_eq_none
  intro a hsome
  obtain ⟨ds, h1, h2, h3, _⟩ := (match_intSlash_some_iff s a).mp hsome
  exact h ds h1 h2 h3

/-- Negative form for literal-headed patterns. -/
theorem match_lit_none (l : List Char) (ts : List Tok) (s : List Char)
    (h : ∀ r, s ≠ l ++ r) :
    matchToks (Tok.lit l :: ts) s = none := by
  apply opt_eq_none
  intro a hsome
  obtain ⟨r, hr, _⟩ := (match_lit_some_iff l ts s a).mp hsome
  exact h r hr

/-- A path whose first character is no digit fails the suffix pattern
`<int:iid>/`. -/
theorem match_intSlash_none_head (c : Char) (s : List Char)
    (h : isDigitChar c = false) :
    matchToks [Tok.intconv "iid", Tok.lit "/".toList] (c :: s) = none := by
  apply match_intSlash_none
  intro ds h1 h2 h3
  cases ds with
  | nil => exact h1 rfl
  | cons d ds =>
    rw [List.cons_append] at h3
    have hcd : c = d := (List.cons.injEq _ _ _ _).mp h3 |>.1
    have := h2 d (by simp)
    rw [← hcd, h] at this
    exact Bool.false_ne_true this

/-- Cancel an identical final element of two list appends. -/
theorem append_singleton_cancel {α : Type} (a : α) (x y : List α)
    (h : x ++ [a] = y ++ [a]) : x = y := by
  have hl : x.length = y.length := by
    have := congrArg List.length h
    simpa using this
  exact (List.append_inj h hl).1

/-! ## Helper lemmas about decimal digits -/

/-- The fuel argument of `natToDigitsCore` is irrelevant above `n`. -/
theorem natToDigitsCore_fuel (n : Nat) :
    ∀ f1 f2 acc, n < f1 → n < f2 →
      natToDigitsCore f1 n acc = natToDigitsCore f2 n acc := by
  induction n using Nat.strong_induction_on with
  | _ n ih =>
    intro f1 f2 acc h1 h2
    cases f1 with
    | zero => omega
    | succ g1 =>
      cases f2 with
      | zero => omega
      | succ g2 =>
        by_cases hn : n < 10
        · simp [natToDigitsCore, hn]
        · simp only [natToDigitsCore, if_neg hn]
          exact ih (n / 10) (by omega) g1 g2 _ (by omega) (by omega)

/-- `natToDigitsCore` only prepends to its accumulator. -/
theorem natToDigitsCore_append (n : Nat) :
    ∀ fuel acc, n < fuel →
      natToDigitsCore fuel n acc = natToDigitsCore fuel n [] ++ acc := by
  induction n using Nat.strong_induction_on with
  | _ n ih =>
    intro fuel acc h
    cases fuel with
    | zero => omega
    | succ g =>
      by_cases hn : n < 10
      · simp [natToDigitsCore, hn]
      · simp only [natToDigitsCore, if_neg hn]
        rw [ih (n / 10) (by omega) g _ (by omega),
          ih (n / 10) (by omega) g (digitChar (n % 10) :: []) (by omega)]
        simp

/-- One-digit base case of the decimal printer. -/
theorem natToDigits_lt10 (n : Nat) (h : n < 10) :
    natToDigits n = [digitChar n] := by
  simp [natToDigits, natToDigitsCore, h]

/-- Unfolding step of the decimal printer for `n ≥ 10`. -/
theorem natToDigits_step (n : Nat) (hn : ¬ n < 10) :
    natToDigits n = natToDigits (n / 10) ++ [digitChar (n % 10)] := by
  unfold natToDigits
  rw [show natToDigitsCore (n + 1) n [] =
      natToDigitsCore n (n / 10) (digitChar (n % 10) :: []) from by
    simp [natToDigitsCore, hn]]
  rw [natToDigitsCore_fuel (n / 10) n (n / 10 + 1) _ (by omega) (by omega)]
  exact natToDigitsCore_append (n / 10) (n / 10 + 1) _ (by omega)

/-- Digit characters are in the `int` converter character class. -/
theorem digitChar_isDigit (d : Nat) (h : d < 10) :
    isDigitChar (digitChar d) = true := by
  interval_cases d <;> decide

/-- `toNat` of a digit character recovers the ASCII code. -/
theorem digitChar_toNat (d : Nat) (h : d < 10) :
    (digitChar d).toNat = 48 + d := by
  interval_cases d <;> decide

/-- Every character of a printed decimal number is a digit. -/
theorem natToDigits_all_digit (n : Nat) :
    ∀ c ∈ natToDigits n, isDigitChar c = true := by
  induction n using Nat.strong_induction_on with
  | _ n ih =>
    by_cases hn : n < 10
    · rw [natToDigits_lt10 n hn]
      intro c hc
      rw [List.mem_singleton] at hc
      rw [hc]
      exact digitChar_isDigit n hn
    · rw [natToDigits_step n hn]
      intro c hc
      rcases List.mem_append.mp hc with h1 | h2
      · exact ih (n / 10) (by omega) c h1
      · rw [List.mem_singleton] at h2
        rw [h2]
        exact digitChar_isDigit (n % 10) (by omega)

/-- A printed decimal number is never the empty string. -/
theorem natToDigits_ne_nil (n : Nat) : natToDigits n ≠ [] := by
  by_cases hn : n < 10
  · rw [natToDigits_lt10 n hn]
    simp
  · rw [natToDigits_step n hn]
    simp

/-- The slash never occurs in a printed decimal number. -/
theorem slash_not_mem_natToDigits (n : Nat) : '/' ∉ natToDigits n := by
  intro h
  have := natToDigits_all_digit n '/' h
  exact absurd this (by decide)

/-- Reading back one appended digit. -/
theorem natFromDigits_append_digit (l : List Char) (c : Char) :
    natFromDigits (l ++ [c]) = 10 * natFromDigits l + (c.toNat - 48) := by
  simp [natFromDigits, List.foldl_append]

/-- Round trip: parsing the printed decimal form of `n` returns `n`.
This is the composition of the Python `str` rendering used by `reverse`
with the `int` conversion of the path converter. -/
theorem natFromDigits_natToDigits (n : Nat) :
    natFromDigits (natToDigits n) = n := by
  induction n using Nat.strong_induction_on with
  | _ n ih =>
    by_cases hn : n < 10
    · rw [natToDigits_lt10 n hn]
      simp [natFromDigits, digitChar_toNat n hn]
    · rw [natToDigits_step n hn, natFromDigits_append_digit,
        ih (n / 10) (by omega), digitChar_toNat (n % 10) (by omega)]
      omega

/-! ## Helper lemmas about dispatch -/

/-- Dispatch step: the head route matches. -/
theorem resolveList_cons_some (r : Route) (rs : List Route) (p : List Char)
    (a : List (String × Nat)) (h : matchToks r.pattern p = some a) :
    resolveList (r :: rs) p = some ⟨r.view, a, r.name⟩ := by
  simp [resolveList, h]

/-- Dispatch step: the head route fails, dispatch moves on. -/
theorem resolveList_cons_none (r : Route) (rs : List Route) (p : List Char)
    (h : matchToks r.pattern p = none) :
    resolveList (r :: rs) p = resolveList rs p := by
  simp [resolveList, h]

/-- Stripping a literal prefix reduces matching to the rest. -/
theorem match_lit_step (l : List Char) (ts : List Tok) (r : List Char) :
    matchToks (Tok.lit l :: ts) (l ++ r) = matchToks ts r := by
  simp [matchToks, dropLit_append]

/-- A path with no slash at all fails the suffix pattern `<int:iid>/`. -/
theorem match_intSlash_none_noslash (s : List Char) (h : '/' ∉ s) :
    matchToks [Tok.intconv "iid", Tok.lit "/".toList] s = none := by
  apply match_intSlash_none
  intro ds _ _ heq
  apply h
  rw [heq]
  exact List.mem_append_right ds (by simp)

/-- A pattern headed by a slash-containing literal fails on a path with
no slash. -/
theorem match_lit_none_noslash (l : List Char) (ts : List Tok)
    (s : List Char) (hl : '/' ∈ l) (hs : '/' ∉ s) :
    matchToks (Tok.lit l :: ts) s = none := by
  apply match_lit_none
  intro r heq
  apply hs
  rw [heq]
  exact List.mem_append_left r hl

/-- Negative form for the full literal-plus-`<int:iid>/` route shape. -/
theorem match_litIntSlash_none (l : List Char) (s : List Char)
    (h : ∀ ds, ds ≠ [] → (∀ c ∈ ds, isDigitChar c = true) →
      s ≠ l ++ (ds ++ ['/'])) :
    matchToks (Tok.lit l :: [Tok.intconv "iid", Tok.lit "/".toList]) s =
      none := by
  apply opt_eq_none
  intro a hsome
  obtain ⟨r, hr, hm⟩ := (match_lit_some_iff _ _ _ _).mp hsome
  obtain ⟨ds, h1, h2, h3, _⟩ := (match_intSlash_some_iff _ _).mp hm
  exact h ds h1 h2 (by rw [hr, h3])

/-- Paths below `plugin/` start with a non-digit, so the bare
`<int:iid>/` pattern fails on them. -/
theorem match_intSlash_none_plugin (x : List Char) :
    matchToks [Tok.intconv "iid", Tok.lit "/".toList]
      ("plugin/".toList ++ x) = none :=
  match_intSlash_none_head 'p' ("lugin/".toList ++ x) (by decide)

/-- Paths below `plugin-debug/` start with a non-digit, so the bare
`<int:iid>/` pattern fails on them. -/
theorem match_intSlash_none_plugindebug (x : List Char) :
    matchToks [Tok.intconv "iid", Tok.lit "/".toList]
      ("plugin-debug/".toList ++ x) = none :=
  match_intSlash_none_head 'p' ("lugin-debug/".toList ++ x) (by decide)

/-- The literal `plugin/` never strips off a `plugin-debug/` path: the
seventh characters differ. -/
theorem match_plugin_none_on_plugindebug (ts : List Tok) (x : List Char) :
    matchToks (Tok.lit "plugin/".toList :: ts)
      ("plugin-debug/".toList ++ x) = none := by
  apply match_lit_none
  intro r heq
  simp at heq

/-- The literal `plugin-debug/` never strips off a `plugin/` path. -/
theorem match_plugindebug_none_on_plugin (ts : List Tok) (x : List Char) :
    matchToks (Tok.lit "plugin-debug/".toList :: ts)
      ("plugin/".toList ++ x) = none := by
  apply match_lit_none
  intro r heq
  simp at heq

/-- A successful `<int:iid>/` match starts with a digit character. -/
theorem match_intSlash_head_digit (s : List Char) (a : List (String × Nat))
    (h : matchToks [Tok.intconv "iid", Tok.lit "/".toList] s = some a) :
    ∃ c t, s = c :: t ∧ isDigitChar c = true := by
  obtain ⟨ds, h1, h2, h3, _⟩ := (match_intSlash_some_iff s a).mp h
  cases ds with
  | nil => exact absurd rfl h1
  | cons c t =>
    exact ⟨c, t ++ ['/'], by rw [h3, List.cons_append], h2 c (by simp)⟩

/-- A successful literal-headed match starts with that literal. -/
theorem match_lit_head (l : List Char) (ts : List Tok) (s : List Char)
    (a : List (String × Nat))
    (h : matchToks (Tok.lit l :: ts) s = some a) : ∃ r, s = l ++ r := by
  obtain ⟨r, hr, _⟩ := (match_lit_some_iff l ts s a).mp h
  exact ⟨r, hr⟩

/-- If no route in a table matches, dispatch over it returns nothing. -/
theorem resolveList_eq_none_of_all (rs : List Route) (p : List Char)
    (h : ∀ r ∈ rs, matchToks r.pattern p = none) :
    resolveList rs p = none := by
  induction rs with
  | nil => rfl
  | cons y ys ih =>
    rw [resolveList_cons_none y ys p (h y (by simp))]
    exact ih (fun r hr => h r (by simp [hr]))

/-- If exactly one route of a table matches a path, dispatch returns
that route's result, wherever the route sits in the table. -/
theorem resolveList_eq_some_unique (rs : List Route) (r : Route)
    (p : List Char) (a : List (String × Nat)) (hmem : r ∈ rs)
    (hm : matchToks r.pattern p = some a)
    (huniq : ∀ x ∈ rs, ∀ b, matchToks x.pattern p = some b → x = r) :
    resolveList rs p = some ⟨r.view, a, r.name⟩ := by
  induction rs with
  | nil => exact absurd hmem (by simp)
  | cons y ys ih =>
    cases hy : matchToks y.pattern p with
    | some b =>
      have hyr : y = r := huniq y (by simp) b hy
      subst hyr
      have hab : b = a := by
        rw [hm] at hy
        exact ((Option.some.injEq _ _).mp hy).symm
      rw [resolveList_cons_some y ys p b hy, hab]
    | none =>
      have hry : r ≠ y := by
        intro hcontra
        rw [hcontra, hy] at hm
        exact Option.noConfusion hm
      have hmem2 : r ∈ ys := by
        rcases List.mem_cons.mp hmem with h1 | h2
        · exact absurd h1 hry
        · exact h2
      rw [resolveList_cons_none y ys p hy]
      exact ih hmem2 (fun x hx b hb => huniq x (by simp [hx]) b hb)

/-- At most one of the three routes matches any given path: the bare
`<int:iid>/` route wants a digit first, the two literal routes want the
incompatible prefixes `plugin/` and `plugin-debug/`. -/
theorem urlpatterns_at_most_one (p : List Char) :
    ∀ r1 ∈ urlpatterns, ∀ r2 ∈ urlpatterns, ∀ a b,
      matchToks r1.pattern p = some a → matchToks r2.pattern p = some b →
        r1 = r2 := by
  have hip : ∀ (a b : List (String × Nat)),
      matchToks route_index.pattern p = some a →
      matchToks route_plugin.pattern p = some b → False := by
    intro a b h1 h2
    obtain ⟨c, t, hct, hd⟩ := match_intSlash_head_digit p a h1
    obtain ⟨r, hr⟩ := match_lit_head "plugin/".toList _ p b h2
    have hh1 : p.head? = some c := by rw [hct]; rfl
    have hh2 : p.head? = some 'p' := by rw [hr]; rfl
    rw [hh1] at hh2
    have hcp : c = 'p' := (Option.some.injEq _ _).mp hh2
    rw [hcp] at hd
    exact absurd hd (by decide)
  have hid : ∀ (a b : List (String × Nat)),
      matchToks route_index.pattern p = some a →
      matchToks route_plugin_debug.pattern p = some b → False := by
    intro a b h1 h2
    obtain ⟨c, t, hct, hd⟩ := match_intSlash_head_digit p a h1
    obtain ⟨r, hr⟩ := match_lit_head "plugin-debug/".toList _ p b h2
    have hh1 : p.head? = some c := by rw [hct]; rfl
    have hh2 : p.head? = some 'p' := by rw [hr]; rfl
    rw [hh1] at hh2
    have hcp : c = 'p' := (Option.some.injEq _ _).mp hh2
    rw [hcp] at hd
    exact absurd hd (by decide)
  have hpd : ∀ (a b : List (String × Nat)),
      matchToks route_plugin.pattern p = some a →
      matchToks route_plugin_debug.pattern p = some b → False := by
    intro a b h1 h2
    obtain ⟨r1, hr1⟩ := match_lit_head "plugin/".toList _ p a h1
    obtain ⟨r2, hr2⟩ := match_lit_head "plugin-debug/".toList _ p b h2
    rw [hr1] at hr2
    simp at hr2
  intro r1 h1 r2 h2 a b hm1 hm2
  have h1x : r1 = route_index ∨ r1 = route_plugin ∨ r1 = route_plugin_debug := by
    simpa [urlpatterns] using h1
  have h2x : r2 = route_index ∨ r2 = route_plugin ∨ r2 = route_plugin_debug := by
    simpa [urlpatterns] using h2
  rcases h1x with rfl | rfl | rfl <;> rcases h2x with rfl | rfl | rfl
  · rfl
  · exact (hip a b hm1 hm2).elim
  · exact (hid a b hm1 hm2).elim
  · exact (hip b a hm2 hm1).elim
  · rfl
  · exact (hpd a b hm1 hm2).elim
  · exact (hid b a hm2 hm1).elim
  · exact (hpd b a hm2 hm1).elim
  · rfl

/-- Shared success skeleton: a nonempty digit run `ds` yields, under each
of the three path shapes, resolution to the corresponding view, name and
captured `iid`. -/
theorem resolve_digits_spec (ds : List Char) (h1 : ds ≠ [])
    (h2 : ∀ c ∈ ds, isDigitChar c = true) :
    resolve (String.mk (ds ++ ['/'])) =
      some ⟨View.index, [("iid", natFromDigits ds)], "ol3-viewer-index"⟩ ∧
    resolve (String.mk ("plugin/".toList ++ (ds ++ ['/']))) =
      some ⟨View.plugin, [("iid", natFromDigits ds)], "ol3-viewer-plugin"⟩ ∧
    resolve (String.mk ("plugin-debug/".toList ++ (ds ++ ['/']))) =
      some ⟨View.plugin_debug, [("iid", natFromDigits ds)],
        "ol3-viewer-plugin-debug"⟩ := by
  refine ⟨?_, ?_, ?_⟩
  · show resolveList (route_index :: [route_plugin, route_plugin_debug])
      (ds ++ ['/']) = _
    rw [resolveList_cons_some route_index [route_plugin, route_plugin_debug]
      (ds ++ ['/']) [("iid", natFromDigits ds)]
      (match_intSlash_digits ds h1 h2)]
    rfl
  · show resolveList (route_index :: route_plugin :: [route_plugin_debug])
      ("plugin/".toList ++ (ds ++ ['/'])) = _
    have hB : matchToks route_plugin.pattern
        ("plugin/".toList ++ (ds ++ ['/'])) =
        some [("iid", natFromDigits ds)] := by
      show matchToks
        (Tok.lit "plugin/".toList :: [Tok.intconv "iid", Tok.lit "/".toList])
        _ = _
      rw [match_lit_step]
      exact match_intSlash_digits ds h1 h2
    rw [resolveList_cons_none _ _ _ (match_intSlash_none_plugin _),
      resolveList_cons_some _ _ _ _ hB]
    rfl
  · show resolveList
      (route_index :: route_plugin :: route_plugin_debug :: [])
      ("plugin-debug/".toList ++ (ds ++ ['/'])) = _
    have hC : matchToks route_plugin_debug.pattern
        ("plugin-debug/".toList ++ (ds ++ ['/'])) =
        some [("iid", natFromDigits ds)] := by
      show matchToks
        (Tok.lit "plugin-debug/".toList ::
          [Tok.intconv "iid", Tok.lit "/".toList]) _ = _
      rw [match_lit_step]
      exact match_intSlash_digits ds h1 h2
    rw [resolveList_cons_none _ _ _ (match_intSlash_none_plugindebug _),
      resolveList_cons_none _ _ _ (match_plugin_none_on_plugindebug _ _),
      resolveList_cons_some _ _ _ _ hC]
    rfl

/-- Shared failure skeleton: a slash-free identifier segment that is not
a nonempty digit run fails resolution under each of the three path
shapes. -/
theorem resolve_badseg_none (seg : List Char) (hs : '/' ∉ seg)
    (hbad : ¬ (seg ≠ [] ∧ ∀ c ∈ seg, isDigitChar c = true)) :
    resolve (String.mk (seg ++ ['/'])) = none ∧
    resolve (String.mk ("plugin/".toList ++ (seg ++ ['/']))) = none ∧
    resolve (String.mk ("plugin-debug/".toList ++ (seg ++ ['/']))) =
      none := by
  refine ⟨?_, ?_, ?_⟩
  · show resolveList (route_index :: route_plugin :: route_plugin_debug :: [])
      (seg ++ ['/']) = _
    have hA : matchToks route_index.pattern (seg ++ ['/']) = none := by
      apply match_intSlash_none
      intro ds hd1 hd2 heq
      have hsd : seg = ds := append_singleton_cancel '/' seg ds heq
      exact hbad ⟨by rw [hsd]; exact hd1, by rw [hsd]; exact hd2⟩
    have hB : matchToks route_plugin.pattern (seg ++ ['/']) = none := by
      apply match_litIntSlash_none
      intro ds hd1 hd2 heq
      rw [← List.append_assoc] at heq
      have hsd : seg = "plugin/".toList ++ ds :=
        append_singleton_cancel '/' seg ("plugin/".toList ++ ds) heq
      apply hs
      rw [hsd]
      exact List.mem_append_left ds (by decide)
    have hC : matchToks route_plugin_debug.pattern (seg ++ ['/']) = none := by
      apply match_litIntSlash_none
      intro ds hd1 hd2 heq
      rw [← List.append_assoc] at heq
      have hsd : seg = "plugin-debug/".toList ++ ds :=
        append_singleton_cancel '/' seg ("plugin-debug/".toList ++ ds) heq
      apply hs
      rw [hsd]
      exact List.mem_append_left ds (by decide)
    rw [resolveList_cons_none _ _ _ hA, resolveList_cons_none _ _ _ hB,
      resolveList_cons_none _ _ _ hC]
    rfl
  · show resolveList (route_index :: route_plugin :: route_plugin_debug :: [])
      ("plugin/".toList ++ (seg ++ ['/'])) = _
    have hB : matchToks route_plugin.pattern
        ("plugin/".toList ++ (seg ++ ['/'])) = none := by
      apply match_litIntSlash_none
      intro ds hd1 hd2 heq
      have hleq : seg ++ ['/'] = ds ++ ['/'] := (List.append_inj heq rfl).2
      have hsd : seg = ds := append_singleton_cancel '/' seg ds hleq
      exact hbad ⟨by rw [hsd]; exact hd1, by rw [hsd]; exact hd2⟩
    rw [resolveList_cons_none _ _ _ (match_intSlash_none_plugin _),
      resolveList_cons_none _ _ _ hB,
      resolveList_cons_none _ _ _ (match_plugindebug_none_on_plugin _ _)]
    rfl
  · show resolveList (route_index :: route_plugin :: route_plugin_debug :: [])
      ("plugin-debug/".toList ++ (seg ++ ['/'])) = _
    have hC : matchToks route_plugin_debug.pattern
        ("plugin-debug/".toList ++ (seg ++ ['/'])) = none := by
      apply match_litIntSlash_none
      intro ds hd1 hd2 heq
      have hleq : seg ++ ['/'] = ds ++ ['/'] := (List.append_inj heq rfl).2
      have hsd : seg = ds := append_singleton_cancel '/' seg ds hleq
      exact hbad ⟨by rw [hsd]; exact hd1, by rw [hsd]; exact hd2⟩
    rw [resolveList_cons_none _ _ _ (match_intSlash_none_plugindebug _),
      resolveList_cons_none _ _ _ (match_plugin_none_on_plugindebug _ _),
      resolveList_cons_none _ _ _ hC]
    rfl

/-! ## Claims -/

/-- Claim C1: for every request path of one of the three listed shapes,
route matching resolves it to the view with the corresponding name and
extracts the integer identifier: `<n>/` (n a digit sequence) resolves to
`views.index` under name `ol3-viewer-index` with `iid = n`,
`plugin/<n>/` to `views.plugin` under `ol3-viewer-plugin`, and
`plugin-debug/<n>/` to `views.plugin_debug` under
`ol3-viewer-plugin-debug`, each with `iid` the value of the digit
sequence. -/
theorem claim1_three_shapes_resolve (ds : List Char) (h1 : ds ≠ [])
    (h2 : ∀ c ∈ ds, isDigitChar c = true) :
    resolve (String.mk (ds ++ ['/'])) =
      some ⟨View.index, [("iid", natFromDigits ds)], "ol3-viewer-index"⟩ ∧
    resolve (String.mk ("plugin/".toList ++ (ds ++ ['/']))) =
      some ⟨View.plugin, [("iid", natFromDigits ds)], "ol3-viewer-plugin"⟩ ∧
    resolve (String.mk ("plugin-debug/".toList ++ (ds ++ ['/']))) =
      some ⟨View.plugin_debug, [("iid", natFromDigits ds)],
        "ol3-viewer-plugin-debug"⟩ :=
  resolve_digits_spec ds h1 h2

/-- Witness for C1 at the spec's own example: `plugin/42/` resolves to
the plugin view with `iid = 42`. -/
theorem claim1_witness :
    ((['4', '2'] : List Char) ≠ [] ∧
      ∀ c ∈ (['4', '2'] : List Char), isDigitChar c = true) ∧
    resolve (String.mk ("plugin/".toList ++ (['4', '2'] ++ ['/']))) =
      some ⟨View.plugin, [("iid", 42)], "ol3-viewer-plugin"⟩ :=
  ⟨⟨by decide, by decide⟩,
    (claim1_three_shapes_resolve ['4', '2'] (by decide) (by decide)).2.1⟩

/-- Claim C2: a slash-free identifier segment that is not a nonempty
digit run fails route matching under all three path shapes (it never
reaches a view handler), and a path matched by none of the registered
routes resolves to nothing (not-found). -/
theorem claim2_nonint_not_found (seg : List Char) (hs : '/' ∉ seg)
    (hbad : ¬ (seg ≠ [] ∧ ∀ c ∈ seg, isDigitChar c = true)) :
    (resolve (String.mk (seg ++ ['/'])) = none ∧
      resolve (String.mk ("plugin/".toList ++ (seg ++ ['/']))) = none ∧
      resolve (String.mk ("plugin-debug/".toList ++ (seg ++ ['/']))) =
        none) ∧
    ∀ p : List Char, (∀ r ∈ urlpatterns, matchToks r.pattern p = none) →
      resolveList urlpatterns p = none :=
  ⟨resolve_badseg_none seg hs hbad,
    fun p h => resolveList_eq_none_of_all urlpatterns p h⟩

/-- Witness for C2 at the spec's own example: `plugin/abc/` does not
match. -/
theorem claim2_witness :
    ('/' ∉ (['a', 'b', 'c'] : List Char) ∧
      ¬ ((['a', 'b', 'c'] : List Char) ≠ [] ∧
        ∀ c ∈ (['a', 'b', 'c'] : List Char), isDigitChar c = true)) ∧
    resolve (String.mk ("plugin/".toList ++ (['a', 'b', 'c'] ++ ['/']))) =
      none :=
  ⟨⟨by decide, by decide⟩,
    (claim2_nonint_not_found ['a', 'b', 'c'] (by decide)
      (by decide)).1.2.1⟩

/-- Claim C3: reverse-URL generation and route matching round-trip: for
each of the three view names and every integer `iid`, the generated path
is exactly the pattern with the decimal form of `iid` substituted, and
resolving that path returns the same view, name, and the same `iid`. -/
theorem claim3_reverse_roundtrip (n : Nat) :
    (reverse "ol3-viewer-index" n =
        some (String.mk (natToDigits n ++ ['/'])) ∧
      resolve (String.mk (natToDigits n ++ ['/'])) =
        some ⟨View.index, [("iid", n)], "ol3-viewer-index"⟩) ∧
    (reverse "ol3-viewer-plugin" n =
        some (String.mk ("plugin/".toList ++ (natToDigits n ++ ['/']))) ∧
      resolve (String.mk ("plugin/".toList ++ (natToDigits n ++ ['/']))) =
        some ⟨View.plugin, [("iid", n)], "ol3-viewer-plugin"⟩) ∧
    (reverse "ol3-viewer-plugin-debug" n =
        some (String.mk
          ("plugin-debug/".toList ++ (natToDigits n ++ ['/']))) ∧
      resolve (String.mk
          ("plugin-debug/".toList ++ (natToDigits n ++ ['/']))) =
        some ⟨View.plugin_debug, [("iid", n)],
          "ol3-viewer-plugin-debug"⟩) := by
  have hspec := resolve_digits_spec (natToDigits n) (natToDigits_ne_nil n)
    (natToDigits_all_digit n)
  rw [natFromDigits_natToDigits n] at hspec
  exact ⟨⟨rfl, hspec.1⟩, ⟨rfl, hspec.2.1⟩, ⟨rfl, hspec.2.2⟩⟩

/-- Claim C4: every one of the three patterns has exactly one capture
group, it is the integer converter, and it is named `iid` in all
three. -/
theorem claim4_single_int_capture :
    urlpatterns.map (fun r => r.pattern.filter Tok.isCapture) =
      [[Tok.intconv "iid"], [Tok.intconv "iid"], [Tok.intconv "iid"]] := by
  decide

/-- Claim C5: the route table has exactly three entries, mapping the
three patterns to the three distinct view handlers `views.index`,
`views.plugin`, `views.plugin_debug`, and nothing else. -/
theorem claim5_three_routes :
    urlpatterns.length = 3 ∧
    urlpatterns.map Route.view =
      [View.index, View.plugin, View.plugin_debug] ∧
    (urlpatterns.map Route.view).Nodup := by
  decide

/-- Claim C6: the mapping from pattern to handler in the route table is
a function: the three patterns are pairwise distinct, and any two
entries with the same pattern carry the same handler (every entry
carries a handler by construction of `Route`). -/
theorem claim6_pattern_handler_function :
    (urlpatterns.map Route.pattern).Nodup ∧
    ∀ r1 ∈ urlpatterns, ∀ r2 ∈ urlpatterns,
      r1.pattern = r2.pattern → r1.view = r2.view := by
  decide

/-- Witness for C6 at the first route. -/
theorem claim6_witness :
    (route_index ∈ urlpatterns ∧
      route_index.pattern = route_index.pattern) ∧
    route_index.view = route_index.view :=
  ⟨⟨by decide, rfl⟩,
    claim6_pattern_handler_function.2 route_index (by decide) route_index
      (by decide) rfl⟩

/-- Claim C7: the imported `patterns` helper is not referenced by the
`urlpatterns` assignment, which uses only `path` and the three view
references; `patterns` is nonetheless among the module imports. -/
theorem claim7_patterns_import_unused :
    "patterns" ∈ importedNames ∧
    "patterns" ∉ urlpatternsReferencedNames ∧
    "path" ∈ urlpatternsReferencedNames ∧
    "views.index" ∈ urlpatternsReferencedNames ∧
    "views.plugin" ∈ urlpatternsReferencedNames ∧
    "views.plugin_debug" ∈ urlpatternsReferencedNames := by
  decide

/-- Claim C8: the three patterns are pairwise disjoint (no path matches
two of them), hence dispatch returns the same result for every
permutation of the route table. -/
theorem claim8_disjoint_order_irrelevant :
    (∀ p : List Char, ∀ r1 ∈ urlpatterns, ∀ r2 ∈ urlpatterns, ∀ a b,
      matchToks r1.pattern p = some a → matchToks r2.pattern p = some b →
        r1 = r2) ∧
    ∀ rs : List Route, rs.Perm urlpatterns →
      ∀ p, resolveList rs p = resolveList urlpatterns p := by
  constructor
  · exact urlpatterns_at_most_one
  · intro rs hperm p
    by_cases hmatch : ∃ r ∈ urlpatterns, ∃ a, matchToks r.pattern p = some a
    · obtain ⟨r, hr, a, ha⟩ := hmatch
      rw [resolveList_eq_some_unique urlpatterns r p a hr ha
          (fun x hx b hb => urlpatterns_at_most_one p x hx r hr b a hb ha),
        resolveList_eq_some_unique rs r p a (hperm.mem_iff.mpr hr) ha
          (fun x hx b hb =>
            urlpatterns_at_most_one p x (hperm.mem_iff.mp hx) r hr b a
              hb ha)]
    · push_neg at hmatch
      rw [resolveList_eq_none_of_all urlpatterns p
          (fun r hr => opt_eq_none _ (hmatch r hr)),
        resolveList_eq_none_of_all rs p
          (fun r hr => opt_eq_none _ (hmatch r (hperm.mem_iff.mp hr)))]

/-- Witness for C8: a concrete reordering of the table and a concrete
matching pair, evaluated at the path `plugin/42/`. -/
theorem claim8_witness :
    (route_plugin ∈ urlpatterns ∧
      matchToks route_plugin.pattern "plugin/42/".toList =
        some [("iid", 42)] ∧
      List.Perm [route_plugin_debug, route_plugin, route_index]
        urlpatterns) ∧
    route_plugin = route_plugin ∧
    resolveList [route_plugin_debug, route_plugin, route_index]
        "plugin/42/".toList =
      resolveList urlpatterns "plugin/42/".toList :=
  ⟨⟨by decide, by decide, by decide⟩,
    claim8_disjoint_order_irrelevant.1 "plugin/42/".toList route_plugin
      (by decide) route_plugin (by decide) [("iid", 42)] [("iid", 42)]
      (by decide) (by decide),
    claim8_disjoint_order_irrelevant.2
      [route_plugin_debug, route_plugin, route_index] (by decide)
      "plugin/42/".toList⟩

/-- Claim C9: the `int` converter matches only unsigned digit runs, so a
signed identifier segment such as `-<n>` matches no route under any of
the three shapes; in particular the plugin path with identifier segment
`-5` is not found, and no handler ever receives a negative `iid`
(captured values are parsed digit runs, hence naturals). -/
theorem claim9_no_signed_iid (n : Nat) :
    (resolve (String.mk (('-' :: natToDigits n) ++ ['/'])) = none ∧
      resolve (String.mk
        ("plugin/".toList ++ (('-' :: natToDigits n) ++ ['/']))) = none ∧
      resolve (String.mk
        ("plugin-debug/".toList ++ (('-' :: natToDigits n) ++ ['/']))) =
        none) ∧
    resolve "plugin/-5/" = none := by
  constructor
  · apply resolve_badseg_none
    · intro hmem
      rcases List.mem_cons.mp hmem with h1 | h2
      · exact absurd h1 (by decide)
      · exact slash_not_mem_natToDigits n h2
    · intro hcontra
      have := hcontra.2 '-' (by simp)
      exact absurd this (by decide)
  · decide

/-- Claim C10: all three patterns require the trailing slash: the same
paths without it match none of the routes. -/
theorem claim10_trailing_slash_required (n : Nat) :
    resolve (String.mk (natToDigits n)) = none ∧
    resolve (String.mk ("plugin/".toList ++ natToDigits n)) = none ∧
    resolve (String.mk ("plugin-debug/".toList ++ natToDigits n)) =
      none := by
  have hnd := slash_not_mem_natToDigits n
  refine ⟨?_, ?_, ?_⟩
  · show resolveList (route_index :: route_plugin :: route_plugin_debug :: [])
      (natToDigits n) = _
    rw [resolveList_cons_none _ _ _ (match_intSlash_none_noslash _ hnd),
      resolveList_cons_none _ _ _
        (match_lit_none_noslash _ _ _ (by decide) hnd),
      resolveList_cons_none _ _ _
        (match_lit_none_noslash _ _ _ (by decide) hnd)]
    rfl
  · show resolveList (route_index :: route_plugin :: route_plugin_debug :: [])
      ("plugin/".toList ++ natToDigits n) = _
    have hB : matchToks route_plugin.pattern
        ("plugin/".toList ++ natToDigits n) = none := by
      show matchToks
        (Tok.lit "plugin/".toList :: [Tok.intconv "iid", Tok.lit "/".toList])
        _ = _
      rw [match_lit_step]
      exact match_intSlash_none_noslash _ hnd
    rw [resolveList_cons_none _ _ _ (match_intSlash_none_plugin _),
      resolveList_cons_none _ _ _ hB,
      resolveList_cons_none _ _ _ (match_plugindebug_none_on_plugin _ _)]
    rfl
  · show resolveList (route_index :: route_plugin :: route_plugin_debug :: [])
      ("plugin-debug/".toList ++ natToDigits n) = _
    have hC : matchToks route_plugin_debug.pattern
        ("plugin-debug/".toList ++ natToDigits n) = none := by
      show matchToks
        (Tok.lit "plugin-debug/".toList ::
          [Tok.intconv "iid", Tok.lit "/".toList]) _ = _
      rw [match_lit_step]
      exact match_intSlash_none_noslash _ hnd
    rw [resolveList_cons_none _ _ _ (match_intSlash_none_plugindebug _),
      resolveList_cons_none _ _ _ (match_plugin_none_on_plugindebug _ _),
      resolveList_cons_none _ _ _ hC]
    rfl
